import Mathlib

/-!
Formal model of the `bytearray` Lua module
(`src/lgi-async-extra/bytearray.c`), a thin wrapper around GLib's
`GByteArray`, together with proofs about its entry points.

The buffer state of a `GByteArray` is modelled as a `List Nat` of byte
values.  Each C entry point (`bytearray_index`, `bytearray_newindex`,
`bytearray_append`, `bytearray_tostring`) is translated into a Lean
function over that state and over a small model of the Lua values and
Lua C-API primitives it touches.  Machine-integer conversions are made
explicit: `lua_Integer` is a 64-bit signed integer modelled as `Int`
bounded by `2^63`, the C cast to `size_t` reduces modulo `2^64`, and a
store into a `guint8` reduces modulo `2^8`.
-/

/-- A Lua value, as far as the bytearray module inspects one.

* `integer` is a `lua_Integer` (64-bit signed).
* `number` is a float; `intRep = some n` exactly when the float has the
  exact integral value `n` (so `lua_tointeger` converts it to `n`),
  `none` otherwise (`lua_tointeger` yields 0).
* `str` is a Lua string, carrying its raw bytes; `intRep = some n`
  exactly when Lua's string-to-integer coercion parses it as `n`.
* `bytearrayUD` is a userdatum of this module's `bytearray` type
  (the byte contents are tracked separately, as the buffer state).
* `gbytesUD` is an LGI `GLib.Bytes` userdatum wrapping the given bytes. -/
inductive LuaValue where
  | nil
  | boolean (b : Bool)
  | integer (n : Int)
  | number (intRep : Option Int)
  | str (bytes : List Nat) (intRep : Option Int)
  | table
  | function
  | bytearrayUD (id : Nat)
  | gbytesUD (data : List Nat)
deriving DecidableEq

/-- Basic Lua type tags, as returned by `lua_type`. -/
inductive LuaType where
  | TNIL | TBOOLEAN | TNUMBER | TSTRING | TTABLE | TFUNCTION | TUSERDATA
deriving DecidableEq

/-- `lua_type` of a value. -/
def lua_type : LuaValue → LuaType
  | .nil => .TNIL
  | .boolean _ => .TBOOLEAN
  | .integer _ => .TNUMBER
  | .number _ => .TNUMBER
  | .str _ _ => .TSTRING
  | .table => .TTABLE
  | .function => .TFUNCTION
  | .bytearrayUD _ => .TUSERDATA
  | .gbytesUD _ => .TUSERDATA

/-- `lua_isinteger`: true exactly for integer-subtype numbers. -/
def lua_isinteger : LuaValue → Bool
  | .integer _ => true
  | _ => false

/-- `lua_tointeger` (i.e. `lua_tointegerx` discarding the success flag):
the value for integers, the exact integral value of a float when it has
one, the parsed integer value of a string when it has one, and 0 in
every other case. -/
def lua_tointeger : LuaValue → Int
  | .integer n => n
  | .number r => r.getD 0
  | .str _ r => r.getD 0
  | _ => 0

/-- `luaL_typename` applied to a stack slot: the basic type name, or
"no value" for an empty (out-of-range) slot. -/
def luaL_typename : Option LuaValue → String
  | none => "no value"
  | some v =>
    match lua_type v with
    | .TNIL => "nil"
    | .TBOOLEAN => "boolean"
    | .TNUMBER => "number"
    | .TSTRING => "string"
    | .TTABLE => "table"
    | .TFUNCTION => "function"
    | .TUSERDATA => "userdata"

/-- Byte encoding of an ASCII string literal (for ASCII text the code
point of each character is its byte). -/
def asciiBytes (s : String) : List Nat := s.data.map Char.toNat

/-- The C cast from `lua_Integer` (64-bit signed) to `size_t` (64-bit
unsigned): reduction modulo `2^64`. -/
def sizeT_ofInt (i : Int) : Nat := (i % 18446744073709551616).toNat

/-- Raw lookup in the `bytearray` metatable.  `luaL_newmetatable` stores
the type name under `__name`, and `luaL_setfuncs` registers the entries
of the `bytearray_mt` array (`__len`, `__tostring`, `__index`,
`__newindex`, `__gc`, `__concat`, `append`), each bound to a C function.
Every other key is absent, so a raw lookup yields nil. -/
def mt_rawget (key : LuaValue) : LuaValue :=
  match key with
  | .str s _ =>
    if s = asciiBytes "__name" then .str (asciiBytes "bytearray") none
    else if s ∈ [asciiBytes "__len", asciiBytes "__tostring",
        asciiBytes "__index", asciiBytes "__newindex",
        asciiBytes "__gc", asciiBytes "__concat",
        asciiBytes "append"] then .function
    else .nil
  | _ => .nil

/-- Result of the `__index` entry point: a byte read for integer keys,
or a raw metatable lookup for any other key. -/
inductive IndexResult where
  | byte (v : Nat)
  | capability (v : LuaValue)
deriving DecidableEq

/-- `bytearray_index`: for an integer key, cast it to `size_t`, reject
it with "index out of range" when it is at or past the length, and
otherwise push the byte at that offset; for any other key, return the
raw metatable lookup. -/
def bytearray_index (buf : List Nat) (key : LuaValue) :
    Except String IndexResult :=
  if lua_isinteger key then
    let index := sizeT_ofInt (lua_tointeger key)
    if buf.length ≤ index then .error "index out of range"
    else .ok (.byte (buf.getD index 0))
  else .ok (.capability (mt_rawget key))

/-- `bytearray_newindex`: coerce the key with `lua_tointeger`, cast to
`size_t`, reject with "index out of range" at or past the length, and
otherwise store the value coerced with `lua_tointeger` and truncated to
a `guint8` (reduction modulo `2^8`). -/
def bytearray_newindex (buf : List Nat) (key value : LuaValue) :
    Except String (List Nat) :=
  let index := sizeT_ofInt (lua_tointeger key)
  if buf.length ≤ index then .error "index out of range"
  else .ok (buf.set index (((lua_tointeger value) % 256).toNat))

/-! ### UTF-8 repair, modelled from GLib

`bytearray_tostring` calls GLib's `g_utf8_make_valid (data, size)` and
pushes exactly `size` bytes of the result with `lua_pushlstring`.
`g_utf8_make_valid` is external library code; it is modelled here from
GLib's `glib/utf8.c`: validation walks the bytes character by
character (`fast_validate_len`), and repair copies each valid character
and replaces the leading byte of each invalid sequence with the 3-byte
UTF-8 encoding `EF BF BD` of U+FFFD, resuming right after that byte.
A NUL byte counts as invalid, since validation with an explicit length
stops at an embedded NUL. -/

/-- Is this byte a UTF-8 continuation byte, i.e. `(b & 0xC0) == 0x80`? -/
def contB (b : Nat) : Bool := decide (b &&& 0xC0 = 0x80)

/-- Does `c` alone form a valid character?  Any byte below `0x80` other
than NUL. -/
def valid1 (c : Nat) : Bool := decide (c ≠ 0 ∧ c < 0x80)

/-- Do `c, c1` form a valid 2-byte character?  Lead bytes `0xC2..0xDF`
(below `0xC2` is a continuation byte or an overlong encoding) followed
by a continuation byte. -/
def valid2 (c c1 : Nat) : Bool :=
  decide (0xC2 ≤ c ∧ c < 0xE0) && contB c1

/-- Do `c, c1, c2` form a valid 3-byte character?  Lead bytes
`0xE0..0xEF`; after `0xE0` the second byte must be `0xA0..0xBF`
(rejecting overlong encodings), after `0xED` it must be `0x80..0x9F`
(rejecting surrogates). -/
def valid3 (c c1 c2 : Nat) : Bool :=
  decide (0xE0 ≤ c ∧ c < 0xF0) &&
  (if c = 0xE0 then decide (c1 &&& 0xE0 = 0xA0)
   else if c = 0xED then decide (c1 &&& 0xE0 = 0x80)
   else contB c1) &&
  contB c2

/-- Do `c, c1, c2, c3` form a valid 4-byte character?  Lead bytes
`0xF0..0xF4`; after `0xF0` the second byte must be `0x90..0xBF`
(rejecting overlong encodings, via `(c1 & 0x30) != 0`), after `0xF4` it
must be `0x80..0x8F` (rejecting code points past U+10FFFF). -/
def valid4 (c c1 c2 c3 : Nat) : Bool :=
  decide (0xF0 ≤ c ∧ c < 0xF5) &&
  (if c = 0xF0 then contB c1 && decide (c1 &&& 0x30 ≠ 0)
   else if c = 0xF4 then decide (c1 &&& 0xF0 = 0x80)
   else contB c1) &&
  contB c2 && contB c3

/-- GLib's `g_utf8_validate` over an explicit length: scan character by
character; the scan succeeds only when the whole list is consumed. -/
def g_utf8_validate : List Nat → Bool
  | [] => true
  | c :: rest =>
    if valid1 c then g_utf8_validate rest
    else
      match rest with
      | [] => false
      | c1 :: rest2 =>
        if valid2 c c1 then g_utf8_validate rest2
        else
          match rest2 with
          | [] => false
          | c2 :: rest3 =>
            if valid3 c c1 c2 then g_utf8_validate rest3
            else
              match rest3 with
              | [] => false
              | c3 :: rest4 =>
                if valid4 c c1 c2 c3 then g_utf8_validate rest4
                else false

/-- One pass of GLib's `g_utf8_make_valid` repair loop, with explicit
fuel so the recursion is structural: copy valid characters; at the
first invalid byte of a sequence emit `EF BF BD` (U+FFFD), skip that
single byte and continue with the rest.  Each step consumes at least
one byte, so any fuel of at least the list's length never runs out;
the fuel-exhaustion arm is unreachable from `g_utf8_make_valid`. -/
def mvStep : Nat → List Nat → List Nat
  | _, [] => []
  | 0, l => l
  | fuel + 1, c :: rest =>
    if valid1 c then c :: mvStep fuel rest
    else
      match rest with
      | [] => 0xEF :: 0xBF :: 0xBD :: mvStep fuel rest
      | c1 :: rest2 =>
        if valid2 c c1 then c :: c1 :: mvStep fuel rest2
        else
          match rest2 with
          | [] => 0xEF :: 0xBF :: 0xBD :: mvStep fuel rest
          | c2 :: rest3 =>
            if valid3 c c1 c2 then c :: c1 :: c2 :: mvStep fuel rest3
            else
              match rest3 with
              | [] => 0xEF :: 0xBF :: 0xBD :: mvStep fuel rest
              | c3 :: rest4 =>
                if valid4 c c1 c2 c3 then
                  c :: c1 :: c2 :: c3 :: mvStep fuel rest4
                else 0xEF :: 0xBF :: 0xBD :: mvStep fuel rest

/-- GLib's `g_utf8_make_valid` over an explicit length. -/
def g_utf8_make_valid (l : List Nat) : List Nat := mvStep l.length l

/-- `bytearray_tostring`: run `g_utf8_make_valid` on the buffer's bytes
and push exactly the buffer's length many bytes of the repaired string
(`lua_pushlstring (L, str, size)` with the original `size`).  The pair
returns the pushed string together with the buffer contents after the
call, which the function never touches. -/
def bytearray_tostring (buf : List Nat) : List Nat × List Nat :=
  ((g_utf8_make_valid buf).take buf.length, buf)

/-! ### The append entry point

`bytearray_append` manipulates the Lua stack explicitly, so the model
carries the stack of the canonical two-argument activation
(`buf:append(x)`, or `buf .. x` through `__concat`): slot 1 holds the
bytearray userdatum, slot 2 the source argument.  The stack is a list
from bottom to top. -/

/-- `lua_pop (L, n)`: drop the top `n` stack values. -/
def lua_pop (st : List LuaValue) (n : Nat) : List LuaValue :=
  st.take (st.length - n)

/-- Read stack slot `i` (1-based); an index beyond the top is an
empty slot. -/
def lua_slot (st : List LuaValue) (i : Nat) : Option LuaValue :=
  st.get? (i - 1)

/-- `lua_tostring` on a value: the bytes of a string, the decimal text
of an integer (number-to-string conversion; float formatting is left
abstract as it is unreachable in this module, where the converted value
is always nil or a string), and NULL (`none`) for every other type. -/
def lua_tostring_opt : LuaValue → Option (List Nat)
  | .str s _ => some s
  | .integer n => some (asciiBytes (toString n))
  | .number _ => some []
  | _ => none

/-- The result of running the snippet
`local val = ...; return val._name` (the C constant `l_get_type_name`)
on a userdata value.  On this module's own userdata the field lookup
dispatches to the `__index` metamethod `bytearray_index` with the
non-integer key "_name", i.e. to a raw metatable lookup; on an LGI
`GLib.Bytes` userdatum LGI resolves `._name` to the type name
"GLib.Bytes".  Other values do not occur as userdata here. -/
def dot_name : LuaValue → LuaValue
  | .gbytesUD _ => .str (asciiBytes "GLib.Bytes") none
  | .bytearrayUD _ => mt_rawget (.str (asciiBytes "_name") none)
  | _ => .nil

/-- Outcome of a `bytearray_append` activation.

* `ret results buf` — the C function returned normally; `results` are
  the Lua values handed back and `buf` the buffer contents afterwards.
* `err argIndex msg buf` — `luaL_argerror`/`luaL_argcheck` raised a Lua
  error about argument `argIndex` with message `msg`.
* `ub buf` — the C code reached undefined behaviour (it calls `strcmp`
  with the NULL pointer that `lua_tostring` returns for a nil value).
* `underflow buf` — the C function returned claiming one result while
  the stack frame held none (a Lua C-API violation: the value handed
  back is whatever sits below the frame, not a value the function
  pushed). -/
inductive AppendResult where
  | ret (results : List LuaValue) (buf : List Nat)
  | err (argIndex : Nat) (msg : String) (buf : List Nat)
  | ub (buf : List Nat)
  | underflow (buf : List Nat)
deriving DecidableEq

/-- The buffer contents after the activation, whatever the outcome. -/
def AppendResult.bufferAfter : AppendResult → List Nat
  | .ret _ b => b
  | .err _ _ b => b
  | .ub b => b
  | .underflow b => b

/-- Did the activation raise a Lua error? -/
def AppendResult.isLuaError : AppendResult → Bool
  | .err _ _ _ => true
  | _ => false

/-- Shared tail of `bytearray_append`:
`if (data != NULL && size > 0) g_byte_array_append (...);
lua_pop (L, 1); return 1;` — `data = none` models a NULL pointer (then
`size` keeps its initial value 0). -/
def append_tail (st : List LuaValue) (data : Option (List Nat))
    (buf : List Nat) : AppendResult :=
  let buf1 := match data with
    | some d => if 0 < d.length then buf ++ d else buf
    | none => buf
  let st1 := lua_pop st 1
  if 1 ≤ st1.length then .ret (st1.drop (st1.length - 1)) buf1
  else .underflow buf1

/-- `bytearray_append` on the two-argument activation `self:append(arg2)`
with buffer contents `buf`:

* string argument — `lua_tolstring` yields its bytes, which the shared
  tail appends;
* userdata argument — run the `l_get_type_name` snippet (stack now
  holds `[self, arg2, name]`), read the name with `lua_tostring`, pop
  two values, `strcmp` the name against "GLib.Bytes"
  (`luaL_argcheck`), read slot 2 back with `lua_touserdata` and take
  the `GBytes` data (for a NULL or non-GBytes pointer,
  `g_bytes_get_data` criticises and returns NULL with `size` still 0);
* any other type — pop one value, then format
  "string or userdata expected, got %s" with `luaL_typename` of slot 2
  and raise `luaL_argerror` for argument 2. -/
def bytearray_append (self arg2 : LuaValue) (buf : List Nat) :
    AppendResult :=
  let st : List LuaValue := [self, arg2]
  match lua_type arg2 with
  | .TSTRING =>
    append_tail st (some (match arg2 with | .str s _ => s | _ => [])) buf
  | .TUSERDATA =>
    let namev := dot_name arg2
    let st1 := st ++ [namev]
    let ty := lua_tostring_opt namev
    let st2 := lua_pop st1 2
    match ty with
    | none => .ub buf
    | some t =>
      if t = asciiBytes "GLib.Bytes" then
        match lua_slot st2 2 with
        | some (.gbytesUD d) => append_tail st2 (some d) buf
        | _ => append_tail st2 none buf
      else .err 2 "GLib.Bytes expected" buf
  | _ =>
    let st1 := lua_pop st 1
    .err 2 ("string or userdata expected, got " ++ luaL_typename (lua_slot st1 2)) buf

/-! ### Helper lemmas -/

/-- A 64-bit signed integer that is negative or at least `len` lands at
or past `len` after the cast to `size_t`, as long as `len` fits a
`guint` (the type of a `GByteArray` length). -/
theorem sizeT_ofInt_ge (i : Int) (len : Nat) (hlen : len < 4294967296)
    (hlo : -9223372036854775808 ≤ i) (hhi : i < 9223372036854775808)
    (hout : i < 0 ∨ (len : Int) ≤ i) : len ≤ sizeT_ofInt i := by
  unfold sizeT_ofInt
  omega

/-- The cast to `size_t` is the identity on `[0, 2^64)`. -/
theorem sizeT_ofInt_eq (i : Int) (h0 : 0 ≤ i)
    (hhi : i < 18446744073709551616) : sizeT_ofInt i = i.toNat := by
  unfold sizeT_ofInt
  omega

/-- The repair loop never shortens its input (each valid character is
copied verbatim and each invalid byte becomes three bytes). -/
theorem mvStep_length_le :
    ∀ (fuel : Nat) (l : List Nat), l.length ≤ fuel →
      l.length ≤ (mvStep fuel l).length := by
  intro fuel
  induction fuel with
  | zero =>
    intro l h
    cases l with
    | nil => simp [mvStep]
    | cons c rest => simp at h
  | succ fuel ih =>
    intro l h
    cases l with
    | nil => simp [mvStep]
    | cons c rest =>
      simp only [List.length_cons] at h
      cases h1 : valid1 c with
      | true =>
        have := ih rest (by omega)
        simp [mvStep, h1]
        omega
      | false =>
        cases rest with
        | nil => simp [mvStep, h1]
        | cons c1 rest2 =>
          simp only [List.length_cons] at h
          cases h2 : valid2 c c1 with
          | true =>
            have := ih rest2 (by omega)
            simp [mvStep, h1, h2]
            omega
          | false =>
            cases rest2 with
            | nil => simp [mvStep, h1, h2]
            | cons c2 rest3 =>
              simp only [List.length_cons] at h
              cases h3 : valid3 c c1 c2 with
              | true =>
                have := ih rest3 (by omega)
                simp [mvStep, h1, h2, h3]
                omega
              | false =>
                cases rest3 with
                | nil => simp [mvStep, h1, h2, h3]
                | cons c3 rest4 =>
                  simp only [List.length_cons] at h
                  cases h4 : valid4 c c1 c2 c3 with
                  | true =>
                    have := ih rest4 (by omega)
                    simp [mvStep, h1, h2, h3, h4]
                    omega
                  | false =>
                    have := ih (c1 :: c2 :: c3 :: rest4) (by simp; omega)
                    simp [mvStep, h1, h2, h3, h4] at this ⊢
                    omega

/-- The repair loop is the identity on valid inputs. -/
theorem mvStep_of_valid :
    ∀ (fuel : Nat) (l : List Nat), l.length ≤ fuel →
      g_utf8_validate l = true → mvStep fuel l = l := by
  intro fuel
  induction fuel with
  | zero =>
    intro l h hv
    cases l with
    | nil => simp [mvStep]
    | cons c rest => simp at h
  | succ fuel ih =>
    intro l h hv
    cases l with
    | nil => simp [mvStep]
    | cons c rest =>
      simp only [List.length_cons] at h
      cases h1 : valid1 c with
      | true =>
        have hv' : g_utf8_validate rest = true := by
          rw [g_utf8_validate.eq_def] at hv
          simpa [h1] using hv
        simp [mvStep, h1, ih rest (by omega) hv']
      | false =>
        cases rest with
        | nil => simp [g_utf8_validate, h1] at hv
        | cons c1 rest2 =>
          simp only [List.length_cons] at h
          cases h2 : valid2 c c1 with
          | true =>
            have hv' : g_utf8_validate rest2 = true := by
              rw [g_utf8_validate.eq_def] at hv
              simpa [h1, h2] using hv
            simp [mvStep, h1, h2, ih rest2 (by omega) hv']
          | false =>
            cases rest2 with
            | nil => simp [g_utf8_validate, h1, h2] at hv
            | cons c2 rest3 =>
              simp only [List.length_cons] at h
              cases h3 : valid3 c c1 c2 with
              | true =>
                have hv' : g_utf8_validate rest3 = true := by
                  rw [g_utf8_validate.eq_def] at hv
                  simpa [h1, h2, h3] using hv
                simp [mvStep, h1, h2, h3, ih rest3 (by omega) hv']
              | false =>
                cases rest3 with
                | nil => simp [g_utf8_validate, h1, h2, h3] at hv
                | cons c3 rest4 =>
                  simp only [List.length_cons] at h
                  cases h4 : valid4 c c1 c2 c3 with
                  | true =>
                    have hv' : g_utf8_validate rest4 = true := by
                      simpa [g_utf8_validate, h1, h2, h3, h4] using hv
                    simp [mvStep, h1, h2, h3, h4, ih rest4 (by omega) hv']
                  | false =>
                    simp [g_utf8_validate, h1, h2, h3, h4] at hv

/-- The repaired string is at least as long as the buffer. -/
theorem g_utf8_make_valid_length_le (l : List Nat) :
    l.length ≤ (g_utf8_make_valid l).length :=
  mvStep_length_le l.length l le_rfl

/-- The repair is the identity on valid UTF-8. -/
theorem g_utf8_make_valid_of_valid (l : List Nat)
    (h : g_utf8_validate l = true) : g_utf8_make_valid l = l :=
  mvStep_of_valid l.length l le_rfl h

/-! ### Claim theorems -/

/-- C1: appending a string source `s` to a buffer extends it in place:
the call returns the buffer userdatum with contents `buf ++ s`, whose
length is `buf.length + s.length`, whose appended region holds exactly
the bytes of `s`, and whose first `buf.length` bytes are the prior
contents unchanged. -/
theorem append_string_correct (self : LuaValue) (buf s : List Nat)
    (rep : Option Int) :
    bytearray_append self (.str s rep) buf = .ret [self] (buf ++ s)
    ∧ (buf ++ s).length = buf.length + s.length
    ∧ (buf ++ s).drop buf.length = s
    ∧ (buf ++ s).take buf.length = buf := by
  refine ⟨?_, by simp, List.drop_left buf s, List.take_left buf s⟩
  cases s with
  | nil => simp [bytearray_append, lua_type, append_tail, lua_pop]
  | cons a t => simp [bytearray_append, lua_type, append_tail, lua_pop]

/-- C2: a 64-bit integer index that is negative or at least the length
makes both the read and the write entry point fail with the
"index out of range" error (the write for any value), and a write that
returns successfully never changes the buffer's length — an indexed
write is never an implicit append. -/
theorem index_newindex_out_of_range (buf : List Nat) (i : Int)
    (v k w : LuaValue) (buf2 : List Nat)
    (hlen : buf.length < 4294967296)
    (hlo : -9223372036854775808 ≤ i) (hhi : i < 9223372036854775808)
    (hout : i < 0 ∨ (buf.length : Int) ≤ i)
    (hok : bytearray_newindex buf k w = .ok buf2) :
    bytearray_index buf (.integer i) = .error "index out of range"
    ∧ bytearray_newindex buf (.integer i) v = .error "index out of range"
    ∧ buf2.length = buf.length := by
  have hge : buf.length ≤ sizeT_ofInt i :=
    sizeT_ofInt_ge i buf.length hlen hlo hhi hout
  refine ⟨?_, ?_, ?_⟩
  · simp [bytearray_index, lua_isinteger, lua_tointeger, hge]
  · simp [bytearray_newindex, lua_tointeger, hge]
  · simp only [bytearray_newindex] at hok
    split at hok
    · simp at hok
    · rw [Except.ok.injEq] at hok
      rw [← hok, List.length_set]

/-- Witness for C2: buffer `[0, 0]`, read and write at index `-1` both
fail, and the in-range write of 300 at index 0 keeps length 2. -/
theorem index_newindex_out_of_range_witness :
    bytearray_index [0, 0] (.integer (-1)) = .error "index out of range"
    ∧ bytearray_newindex [0, 0] (.integer (-1)) .nil
        = .error "index out of range"
    ∧ ([44, 0] : List Nat).length = ([0, 0] : List Nat).length :=
  index_newindex_out_of_range [0, 0] (-1) .nil (.integer 0) (.integer 300)
    [44, 0] (by norm_num) (by norm_num) (by norm_num)
    (Or.inl (by norm_num)) rfl

/-- C3 (code bug): appending an unsupported argument type — here the
number 5 — does raise the InvalidArgument error for argument 2, but the
message names "no value" instead of the offending type: the C code pops
the argument off the stack before reading its type name, so
`luaL_typename` inspects an empty slot.  The typename of the actual
argument would have been "number". -/
theorem append_wrong_type_message :
    bytearray_append (.bytearrayUD 0) (.integer 5) [1, 2]
      = .err 2 "string or userdata expected, got no value" [1, 2]
    ∧ luaL_typename (some (.integer 5)) = "number" :=
  ⟨by decide, rfl⟩

/-- C4 (code bug): appending another bytearray instance reaches
undefined behaviour instead of a clean rejection: the `_name` lookup on
a bytearray userdatum dispatches through `bytearray_index` to a raw
metatable lookup, which yields nil, `lua_tostring` turns nil into a
NULL pointer, and the C code hands that NULL straight to `strcmp`. -/
theorem append_bytearray_ub :
    bytearray_append (.bytearrayUD 0) (.bytearrayUD 1) [1, 2] = .ub [1, 2]
    ∧ (∀ buf : List Nat,
        bytearray_index buf (.str (asciiBytes "_name") none)
          = .ok (.capability .nil))
    ∧ lua_tostring_opt (dot_name (.bytearrayUD 1)) = none :=
  ⟨by decide, fun _ => rfl, by decide⟩

/-- C5: an in-range write stores the value reduced to its low 8 bits
(`v mod 256`), a subsequent read at the same index returns exactly that
byte, any other in-range index reads the same byte as before, and the
length is unchanged. -/
theorem set_get_roundtrip (buf : List Nat) (i v : Int) (j : Nat)
    (h0 : 0 ≤ i) (h1 : i < (buf.length : Int))
    (hlen : buf.length < 4294967296)
    (hj : j < buf.length) (hji : j ≠ i.toNat) :
    bytearray_newindex buf (.integer i) (.integer v)
      = .ok (buf.set i.toNat ((v % 256).toNat))
    ∧ bytearray_index (buf.set i.toNat ((v % 256).toNat)) (.integer i)
      = .ok (.byte ((v % 256).toNat))
    ∧ (buf.set i.toNat ((v % 256).toNat))[j]? = buf[j]?
    ∧ (buf.set i.toNat ((v % 256).toNat)).length = buf.length := by
  have hsz : sizeT_ofInt i = i.toNat :=
    sizeT_ofInt_eq i h0 (by omega)
  have hlt : i.toNat < buf.length := by omega
  have hnle : ¬ (buf.length ≤ i.toNat) := by omega
  refine ⟨?_, ?_, ?_, List.length_set buf i.toNat ((v % 256).toNat)⟩
  · simp [bytearray_newindex, lua_tointeger, hsz, hnle]
  · have hset : (buf.set i.toNat ((v % 256).toNat))[i.toNat]?
        = some ((v % 256).toNat) :=
      List.getElem?_set_eq_of_lt _ hlt
    simp [bytearray_index, lua_isinteger, lua_tointeger, hsz, hnle, hset]
  · exact List.getElem?_set_ne (Ne.symm hji)

/-- Witness for C5: on `[5, 6, 7]`, writing 300 at index 1 stores 44,
reading index 1 yields 44, index 0 is unchanged, length stays 3. -/
theorem set_get_roundtrip_witness :
    bytearray_newindex [5, 6, 7] (.integer 1) (.integer 300) = .ok [5, 44, 7]
    ∧ bytearray_index [5, 44, 7] (.integer 1) = .ok (.byte 44)
    ∧ ([5, 44, 7] : List Nat)[0]? = ([5, 6, 7] : List Nat)[0]?
    ∧ ([5, 44, 7] : List Nat).length = ([5, 6, 7] : List Nat).length := by
  have h := set_get_roundtrip [5, 6, 7] 1 300 0 (by norm_num) (by norm_num)
    (by norm_num) (by norm_num) (by norm_num)
  simpa using h

/-- C6: `bytearray_tostring` always succeeds and never mutates the
buffer: whatever the byte contents, it returns a text value (the
pair's first component) and hands the buffer (second component) back
unchanged; in particular on the lone continuation byte `0x80`, which
has no valid decoding, it still returns a string rather than failing. -/
theorem tostring_total_pure (buf : List Nat) :
    (∃ s, bytearray_tostring buf = (s, buf))
    ∧ bytearray_tostring [0x80] = ([0xEF], [0x80]) :=
  ⟨⟨(g_utf8_make_valid buf).take buf.length, rfl⟩, by decide⟩

/-- C7: appending a zero-length source raises no Lua error and leaves
the buffer's length and every byte unchanged: the empty string is a
no-op that returns the buffer userdatum, and a zero-length `GLib.Bytes`
also leaves the contents untouched and raises no error (its broken
return path, shared with every `GLib.Bytes` append, is the C8 bug). -/
theorem append_empty_source_noop (self : LuaValue) (rep : Option Int)
    (buf : List Nat) :
    bytearray_append self (.str [] rep) buf = .ret [self] buf
    ∧ (bytearray_append self (.gbytesUD []) buf).bufferAfter = buf
    ∧ (bytearray_append self (.gbytesUD []) buf).isLuaError = false :=
  ⟨rfl, rfl, rfl⟩

/-- C8 (code bug): for a `GLib.Bytes` source — a source the module's
own doc comment says it copies in — append neither copies the bytes nor
returns the buffer: after the type check the code has already popped
the argument off the stack, so `lua_touserdata (L, 2)` yields NULL and
nothing is appended, and the final `return 1` claims one result from an
empty stack frame, handing Lua a value from below the frame instead of
the buffer. -/
theorem append_gbytes_never_appends (self : LuaValue) (d buf : List Nat) :
    bytearray_append self (.gbytesUD d) buf = .underflow buf := rfl

/-- C9 counterexample: the non-integer key "1" (a Lua string) is not
coerced to index 0: `lua_tointeger` parses it as the integer 1, so on
the buffer `[10, 20]` the write lands on byte 1 — the result differs
from the byte-0 overwrite the claim predicts. -/
theorem newindex_string_key_counterexample :
    bytearray_newindex [10, 20] (.str (asciiBytes "1") (some 1)) (.integer 7)
      = .ok [10, 7]
    ∧ decide (([10, 7] : List Nat) = [10, 20].set 0 7) = false :=
  ⟨rfl, rfl⟩

/-- C9 (amended): the indexed-write entry point coerces every key with
`lua_tointeger`; a non-integer key with no integer coercion (not an
integral float, not a string parsing as an integer) coerces to 0, so
for such keys the write overwrites byte 0 when the buffer is non-empty
and fails with the out-of-range error when it is empty — never a
capability lookup, a type fault, or a silent no-op on a non-empty
buffer. -/
theorem newindex_key_coercion (buf : List Nat) (k v : LuaValue)
    (hk : lua_isinteger k = false) (hco : lua_tointeger k = 0) :
    (0 < buf.length →
      bytearray_newindex buf k v
        = .ok (buf.set 0 (((lua_tointeger v) % 256).toNat)))
    ∧ (buf.length = 0 →
      bytearray_newindex buf k v = .error "index out of range") := by
  have hs0 : sizeT_ofInt 0 = 0 := rfl
  constructor
  · intro hpos
    have hn : ¬ (buf.length ≤ 0) := by omega
    simp [bytearray_newindex, hco, hs0, hn]
  · intro h0
    simp [bytearray_newindex, hco, hs0, h0]

/-- Witness for C9's amended statement: on `[5]`, writing 300 through
the key nil stores 44 at byte 0; on the empty buffer the same write
fails with the out-of-range error. -/
theorem newindex_key_coercion_witness :
    bytearray_newindex [5] .nil (.integer 300) = .ok [44]
    ∧ bytearray_newindex [] .nil (.integer 300)
        = .error "index out of range" := by
  constructor
  · exact ((newindex_key_coercion [5] .nil (.integer 300) rfl rfl).1
      (by norm_num)).trans (by rfl)
  · exact (newindex_key_coercion [] .nil (.integer 300) rfl rfl).2 rfl

/-- C10: the display string has exactly the buffer's byte count: it is
the first `length(buf)` bytes of the repaired string (which is never
shorter than the buffer, since repair replaces each invalid byte by the
3-byte encoding of U+FFFD), and when the buffer is entirely valid UTF-8
the result is the buffer's bytes verbatim. -/
theorem tostring_length_truncation (buf : List Nat) :
    (bytearray_tostring buf).1 = (g_utf8_make_valid buf).take buf.length
    ∧ (bytearray_tostring buf).1.length = buf.length
    ∧ (g_utf8_validate buf = true → (bytearray_tostring buf).1 = buf) := by
  refine ⟨rfl, ?_, ?_⟩
  · show ((g_utf8_make_valid buf).take buf.length).length = buf.length
    rw [List.length_take]
    exact Nat.min_eq_left (g_utf8_make_valid_length_le buf)
  · intro hv
    show (g_utf8_make_valid buf).take buf.length = buf
    rw [g_utf8_make_valid_of_valid buf hv, List.take_length]

/-- Witness for C10: the string for the two-byte buffer `[65, 0x80]`
has exactly two bytes, and the valid one-byte buffer `[65]` is returned
verbatim. -/
theorem tostring_length_truncation_witness :
    (bytearray_tostring [65, 0x80]).1.length = 2
    ∧ g_utf8_validate [65] = true
    ∧ (bytearray_tostring [65]).1 = [65] :=
  ⟨(tostring_length_truncation [65, 0x80]).2.1, by decide,
    (tostring_length_truncation [65]).2.2 (by decide)⟩
